import Mathlib

/- Shallow embedding of the wuid identifier generator.
   Machine int64 values are modelled by their 64-bit two's-complement bit
   patterns, that is natural numbers below 2^64. Arithmetic that may wrap is
   reduced modulo 2^64, and the few places where the sign of a value matters
   go through the signed int64 view. The two internal variants of the
   repository are embedded separately: namespace H32 holds the variant with a
   32-bit low segment and a 21-bit usable high segment, namespace H28 the
   variant with a 36-bit low segment and a 28-bit high segment. -/

namespace Wuid

/-- Signed value of a 64-bit two's-complement pattern. -/
def int64 (p : Nat) : Int :=
  if p < 2 ^ 63 then (p : Int) else (p : Int) - 2 ^ 64

/-- Bitwise NOT on a 64-bit pattern; the unary caret of the source language. -/
def not64 (p : Nat) : Nat :=
  (2 ^ 64 - 1) ^^^ p

/-- Atomic compare-and-swap on the counter word: the swap applies only when
the current word still equals the expected value, otherwise the word is left
unchanged. -/
def cas (cur expected updated : Nat) : Nat :=
  if cur = expected then updated else cur

/-- Errors returned by the built-in high-segment verification. -/
inductive VerifyErr where
  | notPositive
  | tooBig
  | sameValue
deriving DecidableEq

/-- Result of one Next call: either the returned identifier together with the
flag recording whether an asynchronous renewal was scheduled, or an abnormal
termination (segment exhaustion, or the unreachable default of the output
transform switch). -/
inductive NextOutcome where
  | panicExhausted
  | panicImpossible
  | ok (value : Nat) (renewScheduled : Bool)
deriving DecidableEq

/-- Result of RenewNow: the value returned by invoking the bound renewal
function, or the abnormal termination caused by invoking a nil binding. -/
inductive RenewOutcome (ε : Type) where
  | panicNilFunc
  | ret (e : ε)
deriving DecidableEq

/-- Result of Reset: the updated generator, or an abnormal termination that
leaves the generator exactly as it was. -/
inductive ResetOutcome (σ : Type) where
  | panicked (w : σ)
  | ok (w : σ)

namespace H32

/-- PanicValue indicates when Next starts to panic:
the constant ((1 shifted left by 32) * 96 / 100) AND (NOT 1023). -/
def PanicValue : Nat := ((2 ^ 32) * 96 / 100) &&& not64 1023

/-- CriticalValue indicates when to renew the high bits:
the constant ((1 shifted left by 32) * 80 / 100) AND (NOT 1023). -/
def CriticalValue : Nat := ((2 ^ 32) * 80 / 100) &&& not64 1023

/-- RenewIntervalMask indicates the interval between two renewal attempts. -/
def RenewIntervalMask : Nat := 0x2000000 - 1

/-- Bye, the test helper constant of this variant. -/
def Bye : Nat := ((CriticalValue + RenewIntervalMask) &&& not64 RenewIntervalMask) - 1

/-- Mask of the usable high-segment bits: 21 valid bits starting at bit 32,
so that generated identifiers stay within 53 bits. -/
def H32Mask : Nat := 0x1FFFFF <<< 32

/-- Mask of the low segment: the low 32 bits. -/
def L32Mask : Nat := 0x0FFFFFFFF

/-- Mask applied before branding a section tag, local to Reset. -/
def L60Mask : Nat := 0x0FFFFFFFFFFFFFFF

/-- Generator state of the 32-bit-low variant. The renewal closure is kept
abstract in the type parameter; the logger, lock and statistics counters of
the source are I/O facilities with no bearing on the embedded claims. -/
structure WUID (ρ : Type) where
  N : Nat := 0
  Step : Nat := 1
  Floor : Nat := 0
  Flags : Nat := 0
  Obfuscation : Bool := false
  Monolithic : Bool := true
  ObfuscationMask : Nat := 0
  Section : Nat := 0
  h32Verifier : Option (Int → Option VerifyErr) := none
  Renew : Option ρ := none

/-- Output obfuscation: XOR the obfuscation mask into the word and keep the
high bits of the original word, the case 1 arm of the output switch. -/
def obfuscate {ρ : Type} (w : WUID ρ) (v : Nat) : Nat :=
  (v &&& H32Mask) ||| ((v ^^^ w.ObfuscationMask) &&& L32Mask)

/-- Floor quantization: v / Floor * Floor, the case 2 arm of the output
switch. -/
def quantizeFloor {ρ : Type} (w : WUID ρ) (v : Nat) : Nat :=
  v / w.Floor * w.Floor

/-- One Next call. The atomic add already stores the updated word; on
exhaustion the word is then pinned through a compare-and-swap against the
value the add produced, and the call terminates abnormally. Scheduling of the
asynchronous renewal goroutine is recorded in the outcome flag. -/
def next {ρ : Type} (w : WUID ρ) : NextOutcome × WUID ρ :=
  let v1 := (w.N + w.Step) % 2 ^ 64
  let v2 := v1 &&& L32Mask
  if PanicValue ≤ v2 then
    let pv := (v1 &&& H32Mask) ||| PanicValue
    (.panicExhausted, { w with N := cas v1 v1 pv })
  else
    let sched := decide (CriticalValue ≤ v2) && decide (v2 &&& RenewIntervalMask = 0)
    if w.Flags = 0 then (.ok v1 sched, { w with N := v1 })
    else if w.Flags = 1 then (.ok (obfuscate w v1) sched, { w with N := v1 })
    else if w.Flags = 2 then (.ok (quantizeFloor w v1) sched, { w with N := v1 })
    else if w.Flags = 3 then
      (.ok (quantizeFloor w (obfuscate w v1)) sched, { w with N := v1 })
    else (.panicImpossible, { w with N := v1 })

/-- Iterate Next, recording after each successful call the raw pre-transform
low segment of the stored word; the iteration stops on abnormal
termination. -/
def runNext {ρ : Type} (w : WUID ρ) : Nat → Option (WUID ρ × List Nat)
  | 0 => some (w, [])
  | n + 1 =>
    match next w with
    | (.ok _ _, w') =>
      match runNext w' n with
      | some (wf, raws) => some (wf, (w'.N &&& L32Mask) :: raws)
      | none => none
    | _ => none

/-- RenewNow reads the bound renewal function under the lock and invokes it
outside the lock; run gives the semantics of invoking the closure. A nil
binding faults on invocation. -/
def renewNow {ρ ε : Type} (w : WUID ρ) (run : ρ → ε) : RenewOutcome ε :=
  match w.Renew with
  | some f => .ret (run f)
  | none => .panicNilFunc

/-- Reset installs a recomposed counter word: negative input and input whose
low segment already reached PanicValue terminate abnormally; otherwise the
section tag is branded when sectioning is enabled and the word is aligned up
to the step when a floor is configured. -/
def reset {ρ : Type} (w : WUID ρ) (n : Int) : ResetOutcome (WUID ρ) :=
  if n < 0 then .panicked w
  else
    let m := n.toNat
    if PanicValue ≤ m &&& L32Mask then .panicked w
    else
      let m := if w.Monolithic then m else (m &&& L60Mask) ||| w.Section
      if 1 < w.Floor then
        if m &&& (w.Step - 1) = 0 then .ok { w with N := m }
        else .ok { w with N := (m &&& not64 (w.Step - 1)) + w.Step }
      else .ok { w with N := m }

/-- Verification of a candidate high segment: positive, within the width
bound of the current mode, different from the active high segment, and
accepted by the user verifier when one is configured. -/
def verifyh32 {ρ : Type} (w : WUID ρ) (h32 : Int) : Option VerifyErr :=
  if h32 ≤ 0 then some .notPositive
  else if w.Monolithic ∧ 0x1FFFFF < h32 then some .tooBig
  else if ¬w.Monolithic ∧ 0x00FFFFFF < h32 then some .tooBig
  else
    let current := int64 w.N >>> (32 : Nat)
    if w.Monolithic ∧ h32 = current then some .sameValue
    else if ¬w.Monolithic ∧ h32 = Int.land current 0x00FFFFFF then some .sameValue
    else
      match w.h32Verifier with
      | some cb => cb h32
      | none => none

end H32

namespace H28

/-- PanicValue indicates when Next starts to panic:
the constant ((1 shifted left by 36) * 96 / 100) AND (NOT 1023). -/
def PanicValue : Nat := ((2 ^ 36) * 96 / 100) &&& not64 1023

/-- CriticalValue indicates when to renew the high 28 bits:
the constant ((1 shifted left by 36) * 80 / 100) AND (NOT 1023). -/
def CriticalValue : Nat := ((2 ^ 36) * 80 / 100) &&& not64 1023

/-- RenewIntervalMask indicates how often renew is performed if it fails. -/
def RenewIntervalMask : Nat := 0x20000000 - 1

/-- Mask of the high segment: 28 bits starting at bit 36. -/
def H28Mask : Nat := 0x07FFFFFF <<< 36

/-- Mask of the low segment: the low 36 bits. -/
def L36Mask : Nat := 0x0FFFFFFFFF

/-- Mask applied before branding a section tag in Reset. -/
def SectionMask : Nat := 0x0FFFFFFFFFFFFFFF

/-- Generator state of the 36-bit-low variant. -/
structure WUID (ρ : Type) where
  N : Nat := 0
  Step : Nat := 1
  Floor : Nat := 0
  Monolithic : Bool := true
  Section : Nat := 0
  H28Verifier : Option (Int → Option VerifyErr) := none
  Renew : Option ρ := none

/-- One Next call of the 36-bit-low variant: exhaustion check with
compare-and-swap pinning, renewal scheduling, then floor quantization of the
returned value when a floor is configured. -/
def next {ρ : Type} (w : WUID ρ) : NextOutcome × WUID ρ :=
  let x := (w.N + w.Step) % 2 ^ 64
  let v := x &&& L36Mask
  if PanicValue ≤ v then
    let pv := (x &&& H28Mask) ||| PanicValue
    (.panicExhausted, { w with N := cas x x pv })
  else
    let sched := decide (CriticalValue ≤ v) && decide (v &&& RenewIntervalMask = 0)
    if w.Floor = 0 then (.ok x sched, { w with N := x })
    else (.ok (x / w.Floor * w.Floor) sched, { w with N := x })

/-- Iterate Next, recording after each successful call the raw pre-transform
low segment of the stored word; the iteration stops on abnormal
termination. -/
def runNext {ρ : Type} (w : WUID ρ) : Nat → Option (WUID ρ × List Nat)
  | 0 => some (w, [])
  | n + 1 =>
    match next w with
    | (.ok _ _, w') =>
      match runNext w' n with
      | some (wf, raws) => some (wf, (w'.N &&& L36Mask) :: raws)
      | none => none
    | _ => none

/-- RenewNow reads the bound renewal function under the lock and invokes it
outside the lock; run gives the semantics of invoking the closure. A nil
binding faults on invocation. -/
def renewNow {ρ ε : Type} (w : WUID ρ) (run : ρ → ε) : RenewOutcome ε :=
  match w.Renew with
  | some f => .ret (run f)
  | none => .panicNilFunc

/-- Reset of the 36-bit-low variant: negative input terminates abnormally,
otherwise the word is stored directly, with the section tag branded when
sectioning is enabled. -/
def reset {ρ : Type} (w : WUID ρ) (n : Int) : ResetOutcome (WUID ρ) :=
  if n < 0 then .panicked w
  else
    let m := n.toNat
    if w.Monolithic then .ok { w with N := m }
    else .ok { w with N := (m &&& SectionMask) ||| w.Section }

/-- Verification of a candidate high segment in the 36-bit-low variant. -/
def verifyH28 {ρ : Type} (w : WUID ρ) (h28 : Int) : Option VerifyErr :=
  if h28 ≤ 0 then some .notPositive
  else if w.Monolithic ∧ 0x07FFFFFF < h28 then some .tooBig
  else if ¬w.Monolithic ∧ 0x00FFFFFF < h28 then some .tooBig
  else
    let current := int64 w.N >>> (36 : Nat)
    if w.Monolithic ∧ h28 = current then some .sameValue
    else if ¬w.Monolithic ∧ h28 = Int.land current 0x00FFFFFF then some .sameValue
    else
      match w.H28Verifier with
      | some cb => cb h28
      | none => none

end H28

/-- Result of loading a high segment from the store: a verification error, an
abnormal termination out of Reset, or the updated generator. -/
inductive LoadOutcome (ρ : Type) where
  | err (e : VerifyErr)
  | panicked
  | ok (w : H32.WUID ρ)

/-- Embedding of the Redis loader of the 32-bit-low variant. The store access
itself is external input and output: the value the atomic increment returned
is the argument h32, and act stands for the renewal closure capturing the
client constructor and the key. After verification the packed word is reset
and the renewal function is bound only when no binding exists yet. -/
def loadh32FromRedis {ρ : Type} (w : H32.WUID ρ) (act : ρ) (h32 : Int) : LoadOutcome ρ :=
  match H32.verifyh32 w h32 with
  | some e => .err e
  | none =>
    match H32.reset w (h32 * 2 ^ 32) with
    | .panicked _ => .panicked
    | .ok w1 =>
      match w1.Renew with
      | some _ => .ok w1
      | none => .ok { w1 with Renew := some act }

/- Arithmetic toolbox for the bit-packed counter word. -/

theorem and_shiftLeft_mask (x m k : Nat) :
    x &&& (m <<< k) = ((x >>> k) &&& m) <<< k := by
  apply Nat.eq_of_testBit_eq
  intro i
  simp only [Nat.testBit_and, Nat.testBit_shiftLeft, Nat.testBit_shiftRight]
  by_cases h : k ≤ i
  · rw [Nat.add_sub_cancel' h]
    simp [h, Bool.and_left_comm, Bool.and_comm]
  · simp [h]

theorem and_low_mask (x k : Nat) : x &&& (2 ^ k - 1) = x % 2 ^ k :=
  Nat.and_pow_two_sub_one_eq_mod x k

theorem or_mul_pow (a l k : Nat) (hl : l < 2 ^ k) :
    a * 2 ^ k ||| l = a * 2 ^ k + l := by
  rw [Nat.mul_comm]
  exact (Nat.mul_add_lt_is_or hl a).symm

theorem mod_pow_add_small (a b k : Nat) (h : a % 2 ^ k + b < 2 ^ k) :
    (a + b) % 2 ^ k = a % 2 ^ k + b := by
  conv_lhs => rw [Nat.add_mod]
  rw [Nat.mod_eq_of_lt (show b < 2 ^ k by omega), Nat.mod_eq_of_lt h]

theorem div_pow_decomp (a l k : Nat) (hl : l < 2 ^ k) :
    (a * 2 ^ k + l) / 2 ^ k = a := by
  rw [Nat.mul_comm, Nat.mul_add_div (Nat.pow_pos (by omega)),
    Nat.div_eq_of_lt hl, Nat.add_zero]

theorem and_high_decomp (a l mw k : Nat) (ha : a < 2 ^ mw) (hl : l < 2 ^ k) :
    (a * 2 ^ k + l) &&& ((2 ^ mw - 1) <<< k) = a * 2 ^ k := by
  rw [and_shiftLeft_mask, Nat.shiftRight_eq_div_pow, div_pow_decomp a l k hl,
    and_low_mask, Nat.mod_eq_of_lt ha, Nat.shiftLeft_eq]

theorem mul_pow_add_mod (a l k : Nat) (hl : l < 2 ^ k) :
    (a * 2 ^ k + l) % 2 ^ k = l := by
  rw [Nat.mul_comm, Nat.mul_add_mod, Nat.mod_eq_of_lt hl]

theorem div_mul_eq_sub_mod (q f : Nat) : q / f * f = q - q % f := by
  rw [Nat.mul_comm]
  exact (Nat.sub_eq_of_eq_add (Nat.div_add_mod q f).symm).symm

theorem int64_shiftRight_ofNat (p s : Nat) (hp : p < 2 ^ 63) :
    int64 p >>> s = ((p >>> s : Nat) : Int) := by
  unfold int64
  rw [if_pos hp]
  rfl

theorem int64_land_mask24 (a : Nat) :
    Int.land ((a : Nat) : Int) (0x00FFFFFF : Int) =
      ((a &&& 0x00FFFFFF : Nat) : Int) := rfl

theorem H32.L32Mask_eq_pow : H32.L32Mask = 2 ^ 32 - 1 := by decide

theorem H32.and_L32 (x : Nat) : x &&& H32.L32Mask = x % 2 ^ 32 := by
  rw [H32.L32Mask_eq_pow, and_low_mask]

theorem H32.H32Mask_eq_shift : H32.H32Mask = (2 ^ 21 - 1) <<< 32 := by decide

theorem H32.and_H32_split (x : Nat) :
    x &&& H32.H32Mask = (x >>> 32 &&& (2 ^ 21 - 1)) * 2 ^ 32 := by
  rw [H32.H32Mask_eq_shift, and_shiftLeft_mask, Nat.shiftLeft_eq]

theorem H28.L36Mask_eq_pow : H28.L36Mask = 2 ^ 36 - 1 := by decide

theorem H28.and_L36 (x : Nat) : x &&& H28.L36Mask = x % 2 ^ 36 := by
  rw [H28.L36Mask_eq_pow, and_low_mask]

theorem H28.H28Mask_eq_shift : H28.H28Mask = (2 ^ 27 - 1) <<< 36 := by decide

theorem H28.and_H28_split (x : Nat) :
    x &&& H28.H28Mask = (x >>> 36 &&& (2 ^ 27 - 1)) * 2 ^ 36 := by
  rw [H28.H28Mask_eq_shift, and_shiftLeft_mask, Nat.shiftLeft_eq]

/-- C8 amended: in each bit-split variant the panic threshold constant equals
96 percent of the low-segment address space rounded down to a multiple of
1024, and the critical threshold constant equals 80 percent of the
low-segment space rounded down to a multiple of 1024. -/
theorem C8_thresholds_rounded_to_1024 :
    H32.PanicValue = 2 ^ 32 * 96 / 100 - 2 ^ 32 * 96 / 100 % 1024 ∧
    H32.CriticalValue = 2 ^ 32 * 80 / 100 - 2 ^ 32 * 80 / 100 % 1024 ∧
    H28.PanicValue = 2 ^ 36 * 96 / 100 - 2 ^ 36 * 96 / 100 % 1024 ∧
    H28.CriticalValue = 2 ^ 36 * 80 / 100 - 2 ^ 36 * 80 / 100 % 1024 := by
  decide

/-- C8 counterexample: the panic threshold is not 96 percent of the low space
rounded down to a renewal-interval boundary; in either variant it is not even
a multiple of the renewal interval, and the critical threshold is not exactly
80 percent of the low-segment space. -/
theorem C8_counterexample :
    H32.PanicValue % (H32.RenewIntervalMask + 1) ≠ 0 ∧
    H32.PanicValue ≠
      2 ^ 32 * 96 / 100 - 2 ^ 32 * 96 / 100 % (H32.RenewIntervalMask + 1) ∧
    H28.PanicValue % (H28.RenewIntervalMask + 1) ≠ 0 ∧
    H28.PanicValue ≠
      2 ^ 36 * 96 / 100 - 2 ^ 36 * 96 / 100 % (H28.RenewIntervalMask + 1) ∧
    H32.CriticalValue ≠ 2 ^ 32 * 80 / 100 ∧
    H28.CriticalValue ≠ 2 ^ 36 * 80 / 100 := by
  decide

/-- C10: in the 32/32-split variant Reset terminates abnormally both on
negative input and on any non-negative input whose low-segment bits already
reached the panic threshold, and in both cases the counter word is left
unchanged, so a renewal can never install an already-exhausted epoch. -/
theorem C10_reset_rejects_exhausted {ρ : Type} (w : H32.WUID ρ) (n : Int)
    (h : n < 0 ∨ H32.PanicValue ≤ n.toNat &&& H32.L32Mask) :
    H32.reset w n = .panicked w := by
  unfold H32.reset
  by_cases hn : n < 0
  · rw [if_pos hn]
  · rw [if_neg hn, if_pos (h.resolve_left hn)]

/-- C10 witness: resetting to the 32/32 panic threshold itself is rejected
with the word untouched. -/
theorem C10_reset_rejects_exhausted_witness :
    H32.reset ({ } : H32.WUID Nat) 4123167744 = .panicked { } :=
  C10_reset_rejects_exhausted _ _ (Or.inr (by decide))

/-- C5 amended: RenewNow returns exactly what the bound renewal function
returns, but when no renewal function has been bound the call terminates
abnormally by invoking a nil function binding instead of returning a
specific not-bound-yet error. -/
theorem C5_renewNow_behavior :
    (∀ {ρ ε : Type} (w : H32.WUID ρ) (run : ρ → ε) (f : ρ),
      w.Renew = some f → H32.renewNow w run = .ret (run f)) ∧
    (∀ {ρ ε : Type} (w : H32.WUID ρ) (run : ρ → ε),
      w.Renew = none → H32.renewNow w run = .panicNilFunc) ∧
    (∀ {ρ ε : Type} (w : H28.WUID ρ) (run : ρ → ε) (f : ρ),
      w.Renew = some f → H28.renewNow w run = .ret (run f)) ∧
    (∀ {ρ ε : Type} (w : H28.WUID ρ) (run : ρ → ε),
      w.Renew = none → H28.renewNow w run = .panicNilFunc) := by
  refine ⟨?_, ?_, ?_, ?_⟩
  · intro ρ ε w run f h
    simp [H32.renewNow, h]
  · intro ρ ε w run h
    simp [H32.renewNow, h]
  · intro ρ ε w run f h
    simp [H28.renewNow, h]
  · intro ρ ε w run h
    simp [H28.renewNow, h]

/-- C5 witness: a bound renewal function is invoked and its result is
returned unchanged, in both variants. -/
theorem C5_renewNow_behavior_witness :
    H32.renewNow ({ Renew := some 7 } : H32.WUID Nat) (fun k => some (k + 1)) =
      .ret (some 8) ∧
    H28.renewNow ({ Renew := some 7 } : H28.WUID Nat) (fun k => some (k + 1)) =
      .ret (some 8) :=
  ⟨C5_renewNow_behavior.1 _ _ 7 rfl, C5_renewNow_behavior.2.2.1 _ _ 7 rfl⟩

/-- C5 counterexample: with no renewal function bound, RenewNow does not
return a not-bound-yet error; it terminates abnormally through the nil
function invocation, in both variants. -/
theorem C5_counterexample :
    H32.renewNow ({ } : H32.WUID Nat) (fun _ => (none : Option Nat)) =
      .panicNilFunc ∧
    H28.renewNow ({ } : H28.WUID Nat) (fun _ => (none : Option Nat)) =
      .panicNilFunc :=
  ⟨rfl, rfl⟩

/-- C3 amended: with no user verifier configured, high-segment verification
accepts a candidate exactly when it is positive, within the width bound of
the current mode, and different from the currently active high segment; the
width bound is 0x1FFFFF monolithic versus 0x00FFFFFF sectioned in the 32/32
variant (the sectioned bound is wider there), and 0x07FFFFFF monolithic
versus 0x00FFFFFF sectioned in the 28/36 variant (narrower there). -/
theorem C3_verify_characterization :
    (∀ {ρ : Type} (w : H32.WUID ρ) (h : Int), w.h32Verifier = none →
      w.N < 2 ^ 63 →
      (H32.verifyh32 w h = none ↔
        0 < h ∧ h ≤ (if w.Monolithic then 0x1FFFFF else 0x00FFFFFF) ∧
        h ≠ (if w.Monolithic then ((w.N >>> 32 : Nat) : Int)
             else ((w.N >>> 32 &&& 0x00FFFFFF : Nat) : Int)))) ∧
    (∀ {ρ : Type} (w : H28.WUID ρ) (h : Int), w.H28Verifier = none →
      w.N < 2 ^ 63 →
      (H28.verifyH28 w h = none ↔
        0 < h ∧ h ≤ (if w.Monolithic then 0x07FFFFFF else 0x00FFFFFF) ∧
        h ≠ (if w.Monolithic then ((w.N >>> 36 : Nat) : Int)
             else ((w.N >>> 36 &&& 0x00FFFFFF : Nat) : Int)))) := by
  constructor
  · intro ρ w h hver hN
    have hcur : int64 w.N >>> (32 : Nat) = ((w.N >>> 32 : Nat) : Int) :=
      int64_shiftRight_ofNat _ _ hN
    by_cases hm : w.Monolithic <;>
      simp only [H32.verifyh32, hver, hcur, int64_land_mask24, hm] <;>
      split_ifs <;> simp_all
  · intro ρ w h hver hN
    have hcur : int64 w.N >>> (36 : Nat) = ((w.N >>> 36 : Nat) : Int) :=
      int64_shiftRight_ofNat _ _ hN
    by_cases hm : w.Monolithic <;>
      simp only [H28.verifyH28, hver, hcur, int64_land_mask24, hm] <;>
      split_ifs <;> simp_all

/-- C3 witness: a small positive candidate distinct from the active high
segment is accepted in both variants. -/
theorem C3_verify_characterization_witness :
    H32.verifyh32 ({ N := 5 * 2 ^ 32 } : H32.WUID Nat) 7 = none ∧
    H28.verifyH28 ({ N := 5 * 2 ^ 36 } : H28.WUID Nat) 7 = none :=
  ⟨(C3_verify_characterization.1 _ 7 rfl (by decide)).mpr (by decide),
   (C3_verify_characterization.2 _ 7 rfl (by decide)).mpr (by decide)⟩

theorem H32.PanicValue_eq : H32.PanicValue = 4123167744 := by decide

theorem H32.pinned_low (v : Nat) :
    ((v &&& H32.H32Mask) ||| H32.PanicValue) &&& H32.L32Mask =
      H32.PanicValue := by
  rw [H32.and_H32_split, or_mul_pow _ _ _ (by decide : H32.PanicValue < 2 ^ 32),
    H32.and_L32, mul_pow_add_mod _ _ _ (by decide)]

theorem H32.pinned_add_low (v s : Nat) (hs : s ≤ 1024) :
    (((v &&& H32.H32Mask) ||| H32.PanicValue) + s) &&& H32.L32Mask =
      H32.PanicValue + s := by
  have hlt : H32.PanicValue + s < 2 ^ 32 := by
    have := H32.PanicValue_eq
    omega
  rw [H32.and_H32_split, or_mul_pow _ _ _ (by decide : H32.PanicValue < 2 ^ 32),
    Nat.add_assoc, H32.and_L32, mul_pow_add_mod _ _ _ hlt]

theorem H32.pinned_no_wrap (v s : Nat) (hs : s ≤ 1024) :
    ((v &&& H32.H32Mask) ||| H32.PanicValue) + s < 2 ^ 64 := by
  rw [H32.and_H32_split, or_mul_pow _ _ _ (by decide : H32.PanicValue < 2 ^ 32)]
  have h1 : v >>> 32 &&& (2 ^ 21 - 1) < 2 ^ 21 :=
    Nat.and_lt_two_pow _ (by decide)
  have h2 := H32.PanicValue_eq
  omega

theorem H28.PanicValue_eq_h28 : H28.PanicValue = 65970697216 := by decide

theorem H28.pinned_low_h28 (v : Nat) :
    ((v &&& H28.H28Mask) ||| H28.PanicValue) &&& H28.L36Mask =
      H28.PanicValue := by
  rw [H28.and_H28_split, or_mul_pow _ _ _ (by decide : H28.PanicValue < 2 ^ 36),
    H28.and_L36, mul_pow_add_mod _ _ _ (by decide)]

theorem H28.pinned_add_low_h28 (v s : Nat) (hs : s ≤ 1024) :
    (((v &&& H28.H28Mask) ||| H28.PanicValue) + s) &&& H28.L36Mask =
      H28.PanicValue + s := by
  have hlt : H28.PanicValue + s < 2 ^ 36 := by
    have := H28.PanicValue_eq_h28
    omega
  rw [H28.and_H28_split, or_mul_pow _ _ _ (by decide : H28.PanicValue < 2 ^ 36),
    Nat.add_assoc, H28.and_L36, mul_pow_add_mod _ _ _ hlt]

theorem H28.pinned_no_wrap_h28 (v s : Nat) (hs : s ≤ 1024) :
    ((v &&& H28.H28Mask) ||| H28.PanicValue) + s < 2 ^ 64 := by
  rw [H28.and_H28_split, or_mul_pow _ _ _ (by decide : H28.PanicValue < 2 ^ 36)]
  have h1 : v >>> 36 &&& (2 ^ 27 - 1) < 2 ^ 27 :=
    Nat.and_lt_two_pow _ (by decide)
  have h2 := H28.PanicValue_eq_h28
  omega

/-- C2: a Next call that observes an updated low segment at or above the
panic threshold terminates abnormally and pins the low segment of the stored
word at exactly the panic threshold through the compare-and-swap; a second
Next call from the pinned state terminates abnormally in the same way with
the low segment still pinned at the panic threshold, never wrapped. -/
theorem C2_panic_pins_low :
    (∀ {ρ : Type} (w : H32.WUID ρ),
      w.N + w.Step < 2 ^ 64 → w.Step ≤ 1024 →
      H32.PanicValue ≤ (w.N + w.Step) &&& H32.L32Mask →
      ∃ w1, H32.next w = (.panicExhausted, w1) ∧
        w1.N &&& H32.L32Mask = H32.PanicValue ∧
        ∃ w2, H32.next w1 = (.panicExhausted, w2) ∧
          w2.N &&& H32.L32Mask = H32.PanicValue) ∧
    (∀ {ρ : Type} (w : H28.WUID ρ),
      w.N + w.Step < 2 ^ 64 → w.Step ≤ 1024 →
      H28.PanicValue ≤ (w.N + w.Step) &&& H28.L36Mask →
      ∃ w1, H28.next w = (.panicExhausted, w1) ∧
        w1.N &&& H28.L36Mask = H28.PanicValue ∧
        ∃ w2, H28.next w1 = (.panicExhausted, w2) ∧
          w2.N &&& H28.L36Mask = H28.PanicValue) := by
  constructor
  · intro ρ w hnw hs hpan
    have hv2 : (w.N + w.Step) % 2 ^ 64 = w.N + w.Step := Nat.mod_eq_of_lt hnw
    have h1 : H32.next w = (.panicExhausted,
        { w with N := ((w.N + w.Step) &&& H32.H32Mask) ||| H32.PanicValue }) := by
      simp only [H32.next, hv2, cas, eq_self_iff_true, if_true, if_pos hpan]
    have hnw2 :
        (((w.N + w.Step) &&& H32.H32Mask) ||| H32.PanicValue) + w.Step <
          2 ^ 64 := H32.pinned_no_wrap _ _ hs
    have hv3 := Nat.mod_eq_of_lt hnw2
    have hlow := H32.pinned_add_low (w.N + w.Step) w.Step hs
    have h2 : H32.next
        ({ w with N := ((w.N + w.Step) &&& H32.H32Mask) ||| H32.PanicValue }) =
        (.panicExhausted, { w with N :=
          (((((w.N + w.Step) &&& H32.H32Mask) ||| H32.PanicValue) + w.Step) &&&
            H32.H32Mask) ||| H32.PanicValue }) := by
      simp only [H32.next, hv3, hlow, cas, eq_self_iff_true, if_true,
        if_pos (Nat.le_add_right H32.PanicValue w.Step)]
    exact ⟨_, h1, H32.pinned_low _, _, h2, H32.pinned_low _⟩
  · intro ρ w hnw hs hpan
    have hv2 : (w.N + w.Step) % 2 ^ 64 = w.N + w.Step := Nat.mod_eq_of_lt hnw
    have h1 : H28.next w = (.panicExhausted,
        { w with N := ((w.N + w.Step) &&& H28.H28Mask) ||| H28.PanicValue }) := by
      simp only [H28.next, hv2, cas, eq_self_iff_true, if_true, if_pos hpan]
    have hnw2 :
        (((w.N + w.Step) &&& H28.H28Mask) ||| H28.PanicValue) + w.Step <
          2 ^ 64 := H28.pinned_no_wrap_h28 _ _ hs
    have hv3 := Nat.mod_eq_of_lt hnw2
    have hlow := H28.pinned_add_low_h28 (w.N + w.Step) w.Step hs
    have h2 : H28.next
        ({ w with N := ((w.N + w.Step) &&& H28.H28Mask) ||| H28.PanicValue }) =
        (.panicExhausted, { w with N :=
          (((((w.N + w.Step) &&& H28.H28Mask) ||| H28.PanicValue) + w.Step) &&&
            H28.H28Mask) ||| H28.PanicValue }) := by
      simp only [H28.next, hv3, hlow, cas, eq_self_iff_true, if_true,
        if_pos (Nat.le_add_right H28.PanicValue w.Step)]
    exact ⟨_, h1, H28.pinned_low_h28 _, _, h2, H28.pinned_low_h28 _⟩

/-- C2 witness: one step below the panic threshold, the next two calls both
terminate abnormally with the low segment pinned, in both variants. -/
theorem C2_panic_pins_low_witness :
    (∃ w1, H32.next ({ N := 4123167743 } : H32.WUID Nat) =
        (.panicExhausted, w1) ∧
      w1.N &&& H32.L32Mask = H32.PanicValue ∧
      ∃ w2, H32.next w1 = (.panicExhausted, w2) ∧
        w2.N &&& H32.L32Mask = H32.PanicValue) ∧
    (∃ w1, H28.next ({ N := 65970697215 } : H28.WUID Nat) =
        (.panicExhausted, w1) ∧
      w1.N &&& H28.L36Mask = H28.PanicValue ∧
      ∃ w2, H28.next w1 = (.panicExhausted, w2) ∧
        w2.N &&& H28.L36Mask = H28.PanicValue) :=
  ⟨C2_panic_pins_low.1 _ (by decide) (by decide) (by decide),
   C2_panic_pins_low.2 _ (by decide) (by decide) (by decide)⟩

theorem H32.next_ok {ρ : Type} (w : H32.WUID ρ)
    (hnw : w.N + w.Step < 2 ^ 64)
    (hp : (w.N + w.Step) &&& H32.L32Mask < H32.PanicValue)
    (hf : w.Flags < 4) :
    H32.next w = (.ok
      (if w.Flags = 0 then w.N + w.Step
       else if w.Flags = 1 then H32.obfuscate w (w.N + w.Step)
       else if w.Flags = 2 then H32.quantizeFloor w (w.N + w.Step)
       else H32.quantizeFloor w (H32.obfuscate w (w.N + w.Step)))
      (decide (H32.CriticalValue ≤ (w.N + w.Step) &&& H32.L32Mask) &&
        decide ((w.N + w.Step) &&& H32.L32Mask &&& H32.RenewIntervalMask = 0)),
      { w with N := w.N + w.Step }) := by
  have hv : (w.N + w.Step) % 2 ^ 64 = w.N + w.Step := Nat.mod_eq_of_lt hnw
  simp only [H32.next, hv, if_neg (Nat.not_le.mpr hp)]
  rcases show w.Flags = 0 ∨ w.Flags = 1 ∨ w.Flags = 2 ∨ w.Flags = 3 by omega
    with h | h | h | h <;> simp [h]

theorem H28.next_ok_h28 {ρ : Type} (w : H28.WUID ρ)
    (hnw : w.N + w.Step < 2 ^ 64)
    (hp : (w.N + w.Step) &&& H28.L36Mask < H28.PanicValue) :
    H28.next w = (.ok
      (if w.Floor = 0 then w.N + w.Step
       else (w.N + w.Step) / w.Floor * w.Floor)
      (decide (H28.CriticalValue ≤ (w.N + w.Step) &&& H28.L36Mask) &&
        decide ((w.N + w.Step) &&& H28.L36Mask &&& H28.RenewIntervalMask = 0)),
      { w with N := w.N + w.Step }) := by
  have hv : (w.N + w.Step) % 2 ^ 64 = w.N + w.Step := Nat.mod_eq_of_lt hnw
  simp only [H28.next, hv, if_neg (Nat.not_le.mpr hp)]
  by_cases h : w.Floor = 0 <;> simp [h]

theorem H32.RenewIntervalMask_eq_pow : H32.RenewIntervalMask = 2 ^ 25 - 1 := by
  decide

theorem H28.RenewIntervalMask_eq_pow_h28 : H28.RenewIntervalMask = 2 ^ 29 - 1 := by
  decide

/-- C3 counterexample: in the 32/32 variant the sectioned width bound is
wider than the monolithic one, not narrower: candidate 0x300000 is rejected
as exceeding the monolithic bound, yet the same candidate is accepted once
multi-tenant sectioning is enabled. -/
theorem C3_counterexample :
    H32.verifyh32 ({ } : H32.WUID Nat) 0x300000 = some .tooBig ∧
    H32.verifyh32 ({ Monolithic := false, Section := 1 * 2 ^ 60 } :
      H32.WUID Nat) 0x300000 = none := by
  constructor <;> decide

/-- C4: a Next call schedules an asynchronous renewal attempt exactly when
the updated low-segment value is at or above the critical threshold and
lands on a renewal-interval boundary under the bitmask test; consequently
two consecutive calls can never both schedule an attempt, since the step is
far smaller than the renewal interval. -/
theorem C4_renewal_schedule_iff :
    (∀ {ρ : Type} (w : H32.WUID ρ),
      w.N + w.Step < 2 ^ 64 →
      (w.N + w.Step) &&& H32.L32Mask < H32.PanicValue → w.Flags < 4 →
      ∃ r s w', H32.next w = (.ok r s, w') ∧
        (s = true ↔ H32.CriticalValue ≤ (w.N + w.Step) &&& H32.L32Mask ∧
          (w.N + w.Step) &&& H32.L32Mask &&& H32.RenewIntervalMask = 0)) ∧
    (∀ {ρ : Type} (w w1 w2 : H32.WUID ρ) (r1 : Nat) (s1 : Bool) (r2 : Nat)
      (s2 : Bool),
      w.N % 2 ^ 32 + 2 * w.Step < H32.PanicValue → w.N + 2 * w.Step < 2 ^ 64 →
      0 < w.Step → w.Step ≤ 1024 → w.Flags < 4 →
      H32.next w = (.ok r1 s1, w1) → H32.next w1 = (.ok r2 s2, w2) →
      s1 = false ∨ s2 = false) ∧
    (∀ {ρ : Type} (w : H28.WUID ρ),
      w.N + w.Step < 2 ^ 64 →
      (w.N + w.Step) &&& H28.L36Mask < H28.PanicValue →
      ∃ r s w', H28.next w = (.ok r s, w') ∧
        (s = true ↔ H28.CriticalValue ≤ (w.N + w.Step) &&& H28.L36Mask ∧
          (w.N + w.Step) &&& H28.L36Mask &&& H28.RenewIntervalMask = 0)) ∧
    (∀ {ρ : Type} (w w1 w2 : H28.WUID ρ) (r1 : Nat) (s1 : Bool) (r2 : Nat)
      (s2 : Bool),
      w.N % 2 ^ 36 + 2 * w.Step < H28.PanicValue → w.N + 2 * w.Step < 2 ^ 64 →
      0 < w.Step → w.Step ≤ 1024 →
      H28.next w = (.ok r1 s1, w1) → H28.next w1 = (.ok r2 s2, w2) →
      s1 = false ∨ s2 = false) := by
  refine ⟨?_, ?_, ?_, ?_⟩
  · intro ρ w hnw hp hf
    refine ⟨_, _, _, H32.next_ok w hnw hp hf, ?_⟩
    simp [Bool.and_eq_true, decide_eq_true_eq]
  · intro ρ w w1 w2 r1 s1 r2 s2 hp2 hnw2 hstep hstep2 hf h1 h2
    have hP := H32.PanicValue_eq
    have hm1 : (w.N + w.Step) % 2 ^ 32 = w.N % 2 ^ 32 + w.Step :=
      mod_pow_add_small _ _ _ (by omega)
    have hp1 : (w.N + w.Step) &&& H32.L32Mask < H32.PanicValue := by
      rw [H32.and_L32, hm1]; omega
    have hnw1 : w.N + w.Step < 2 ^ 64 := by omega
    rw [H32.next_ok w hnw1 hp1 hf] at h1
    simp only [Prod.mk.injEq, NextOutcome.ok.injEq] at h1
    obtain ⟨⟨hr1, hs1⟩, hw1⟩ := h1
    subst hw1
    have hm2 : (w.N + w.Step + w.Step) % 2 ^ 32 =
        w.N % 2 ^ 32 + (w.Step + w.Step) := by
      have h := mod_pow_add_small w.N (w.Step + w.Step) 32 (by omega)
      rw [← Nat.add_assoc] at h
      exact h
    have hp1' : (w.N + w.Step + w.Step) &&& H32.L32Mask < H32.PanicValue := by
      rw [H32.and_L32, hm2]; omega
    have hnw1' : w.N + w.Step + w.Step < 2 ^ 64 := by omega
    rw [H32.next_ok ({ w with N := w.N + w.Step } : H32.WUID ρ) hnw1' hp1' hf]
      at h2
    simp only [Prod.mk.injEq, NextOutcome.ok.injEq] at h2
    obtain ⟨⟨hr2, hs2⟩, hw2⟩ := h2
    by_contra hcon
    push_neg at hcon
    obtain ⟨hc1, hc2⟩ := hcon
    rw [Bool.ne_false_iff] at hc1 hc2
    rw [hc1] at hs1
    rw [hc2] at hs2
    rw [Bool.and_eq_true, decide_eq_true_eq, decide_eq_true_eq] at hs1 hs2
    obtain ⟨-, hb1⟩ := hs1
    obtain ⟨-, hb2⟩ := hs2
    rw [H32.and_L32, H32.RenewIntervalMask_eq_pow, and_low_mask, hm1] at hb1
    rw [H32.and_L32, H32.RenewIntervalMask_eq_pow, and_low_mask, hm2] at hb2
    omega
  · intro ρ w hnw hp
    refine ⟨_, _, _, H28.next_ok_h28 w hnw hp, ?_⟩
    simp [Bool.and_eq_true, decide_eq_true_eq]
  · intro ρ w w1 w2 r1 s1 r2 s2 hp2 hnw2 hstep hstep2 h1 h2
    have hP := H28.PanicValue_eq_h28
    have hm1 : (w.N + w.Step) % 2 ^ 36 = w.N % 2 ^ 36 + w.Step :=
      mod_pow_add_small _ _ _ (by omega)
    have hp1 : (w.N + w.Step) &&& H28.L36Mask < H28.PanicValue := by
      rw [H28.and_L36, hm1]; omega
    have hnw1 : w.N + w.Step < 2 ^ 64 := by omega
    rw [H28.next_ok_h28 w hnw1 hp1] at h1
    simp only [Prod.mk.injEq, NextOutcome.ok.injEq] at h1
    obtain ⟨⟨hr1, hs1⟩, hw1⟩ := h1
    subst hw1
    have hm2 : (w.N + w.Step + w.Step) % 2 ^ 36 =
        w.N % 2 ^ 36 + (w.Step + w.Step) := by
      have h := mod_pow_add_small w.N (w.Step + w.Step) 36 (by omega)
      rw [← Nat.add_assoc] at h
      exact h
    have hp1' : (w.N + w.Step + w.Step) &&& H28.L36Mask < H28.PanicValue := by
      rw [H28.and_L36, hm2]; omega
    have hnw1' : w.N + w.Step + w.Step < 2 ^ 64 := by omega
    rw [H28.next_ok_h28 ({ w with N := w.N + w.Step } : H28.WUID ρ) hnw1' hp1']
      at h2
    simp only [Prod.mk.injEq, NextOutcome.ok.injEq] at h2
    obtain ⟨⟨hr2, hs2⟩, hw2⟩ := h2
    by_contra hcon
    push_neg at hcon
    obtain ⟨hc1, hc2⟩ := hcon
    rw [Bool.ne_false_iff] at hc1 hc2
    rw [hc1] at hs1
    rw [hc2] at hs2
    rw [Bool.and_eq_true, decide_eq_true_eq, decide_eq_true_eq] at hs1 hs2
    obtain ⟨-, hb1⟩ := hs1
    obtain ⟨-, hb2⟩ := hs2
    rw [H28.and_L36, H28.RenewIntervalMask_eq_pow_h28, and_low_mask, hm1] at hb1
    rw [H28.and_L36, H28.RenewIntervalMask_eq_pow_h28, and_low_mask, hm2] at hb2
    omega

/-- C4 witness: a concrete call landing on a renewal boundary at or above the
critical threshold, in the 32/32 variant. -/
theorem C4_renewal_schedule_iff_witness :
    ∃ r s w', H32.next ({ N := 3456106495 } : H32.WUID Nat) = (.ok r s, w') ∧
      (s = true ↔ H32.CriticalValue ≤ (3456106495 + 1) &&& H32.L32Mask ∧
        (3456106495 + 1) &&& H32.L32Mask &&& H32.RenewIntervalMask = 0) :=
  C4_renewal_schedule_iff.1 _ (by decide) (by decide) (by decide)

theorem chain'_map_range (f : Nat → Nat) (P : Nat → Nat → Prop) (n : Nat)
    (h : ∀ k, P (f k) (f (k + 1))) :
    List.Chain' P ((List.range n).map f) := by
  rw [List.chain'_map]
  cases n with
  | zero => simp
  | succ m => exact (List.chain'_range_succ _ m).mpr fun k _ => h k

theorem H32.runNext_eq {ρ : Type} (w : H32.WUID ρ) (n : Nat) (hs : 0 < w.Step)
    (hf : w.Flags < 4) (hp : w.N % 2 ^ 32 + n * w.Step < H32.PanicValue)
    (hnw : w.N + n * w.Step < 2 ^ 64) :
    H32.runNext w n = some ({ w with N := w.N + n * w.Step },
      (List.range n).map fun k => w.N % 2 ^ 32 + (k + 1) * w.Step) := by
  induction n generalizing w with
  | zero => simp [H32.runNext]
  | succ n ih =>
    have hP := H32.PanicValue_eq
    have hle : w.Step ≤ (n + 1) * w.Step := by
      calc w.Step = 1 * w.Step := (Nat.one_mul _).symm
      _ ≤ (n + 1) * w.Step := Nat.mul_le_mul_right _ (by omega)
    have hsm : (n + 1) * w.Step = n * w.Step + w.Step := Nat.succ_mul n w.Step
    have hm1 : (w.N + w.Step) % 2 ^ 32 = w.N % 2 ^ 32 + w.Step :=
      mod_pow_add_small _ _ _ (by omega)
    have hp1 : (w.N + w.Step) &&& H32.L32Mask < H32.PanicValue := by
      rw [H32.and_L32, hm1]; omega
    have hnw1 : w.N + w.Step < 2 ^ 64 := by omega
    have hih := ih ({ w with N := w.N + w.Step } : H32.WUID ρ) hs hf
      (by dsimp only; rw [hm1]; omega) (by dsimp only; omega)
    simp only [H32.runNext, H32.next_ok w hnw1 hp1 hf, hih]
    rw [H32.and_L32, hm1, List.range_succ_eq_map, List.map_cons, List.map_map]
    simp only [Option.some.injEq, Prod.mk.injEq, List.cons.injEq]
    refine ⟨?_, by omega, List.map_congr_left fun k _ => ?_⟩
    · have hN : w.N + w.Step + n * w.Step = w.N + (n + 1) * w.Step := by omega
      rw [hN]
    · dsimp only [Function.comp, Nat.succ_eq_add_one]
      ring

theorem H28.runNext_eq_h28 {ρ : Type} (w : H28.WUID ρ) (n : Nat) (hs : 0 < w.Step)
    (hp : w.N % 2 ^ 36 + n * w.Step < H28.PanicValue)
    (hnw : w.N + n * w.Step < 2 ^ 64) :
    H28.runNext w n = some ({ w with N := w.N + n * w.Step },
      (List.range n).map fun k => w.N % 2 ^ 36 + (k + 1) * w.Step) := by
  induction n generalizing w with
  | zero => simp [H28.runNext]
  | succ n ih =>
    have hP := H28.PanicValue_eq_h28
    have hle : w.Step ≤ (n + 1) * w.Step := by
      calc w.Step = 1 * w.Step := (Nat.one_mul _).symm
      _ ≤ (n + 1) * w.Step := Nat.mul_le_mul_right _ (by omega)
    have hsm : (n + 1) * w.Step = n * w.Step + w.Step := Nat.succ_mul n w.Step
    have hm1 : (w.N + w.Step) % 2 ^ 36 = w.N % 2 ^ 36 + w.Step :=
      mod_pow_add_small _ _ _ (by omega)
    have hp1 : (w.N + w.Step) &&& H28.L36Mask < H28.PanicValue := by
      rw [H28.and_L36, hm1]; omega
    have hnw1 : w.N + w.Step < 2 ^ 64 := by omega
    have hih := ih ({ w with N := w.N + w.Step } : H28.WUID ρ) hs
      (by dsimp only; rw [hm1]; omega) (by dsimp only; omega)
    simp only [H28.runNext, H28.next_ok_h28 w hnw1 hp1, hih]
    rw [H28.and_L36, hm1, List.range_succ_eq_map, List.map_cons, List.map_map]
    simp only [Option.some.injEq, Prod.mk.injEq, List.cons.injEq]
    refine ⟨?_, by omega, List.map_congr_left fun k _ => ?_⟩
    · have hN : w.N + w.Step + n * w.Step = w.N + (n + 1) * w.Step := by omega
      rw [hN]
    · dsimp only [Function.comp, Nat.succ_eq_add_one]
      ring

/-- C1: with no renewal and the panic threshold out of reach, n Next calls
produce as raw pre-transform low-segment values exactly initial plus step,
initial plus two steps, up to initial plus n steps: strictly increasing, no
duplicates, and consecutive gaps of exactly at most one step, in both
variants. -/
theorem C1_raw_low_sequence :
    (∀ {ρ : Type} (w : H32.WUID ρ) (n : Nat),
      0 < w.Step → w.Flags < 4 →
      w.N % 2 ^ 32 + n * w.Step < H32.PanicValue →
      w.N + n * w.Step < 2 ^ 64 →
      H32.runNext w n = some ({ w with N := w.N + n * w.Step },
        (List.range n).map fun k => w.N % 2 ^ 32 + (k + 1) * w.Step) ∧
      List.Chain' (fun a b => a < b ∧ b ≤ a + w.Step)
        ((List.range n).map fun k => w.N % 2 ^ 32 + (k + 1) * w.Step) ∧
      List.Pairwise (fun a b => a < b)
        ((List.range n).map fun k => w.N % 2 ^ 32 + (k + 1) * w.Step)) ∧
    (∀ {ρ : Type} (w : H28.WUID ρ) (n : Nat),
      0 < w.Step →
      w.N % 2 ^ 36 + n * w.Step < H28.PanicValue →
      w.N + n * w.Step < 2 ^ 64 →
      H28.runNext w n = some ({ w with N := w.N + n * w.Step },
        (List.range n).map fun k => w.N % 2 ^ 36 + (k + 1) * w.Step) ∧
      List.Chain' (fun a b => a < b ∧ b ≤ a + w.Step)
        ((List.range n).map fun k => w.N % 2 ^ 36 + (k + 1) * w.Step) ∧
      List.Pairwise (fun a b => a < b)
        ((List.range n).map fun k => w.N % 2 ^ 36 + (k + 1) * w.Step)) := by
  constructor
  · intro ρ w n hs hf hp hnw
    refine ⟨H32.runNext_eq w n hs hf hp hnw, ?_, ?_⟩
    · refine chain'_map_range _ _ n fun k => ⟨?_, ?_⟩
      · have : (k + 1) * w.Step < (k + 1 + 1) * w.Step :=
          (Nat.mul_lt_mul_right hs).mpr (by omega)
        omega
      · have : (k + 1 + 1) * w.Step = (k + 1) * w.Step + w.Step :=
          Nat.succ_mul _ _
        omega
    · refine List.Pairwise.map _ (fun a b hab => ?_) (List.pairwise_lt_range n)
      have : (a + 1) * w.Step < (b + 1) * w.Step :=
        (Nat.mul_lt_mul_right hs).mpr (by omega)
      omega
  · intro ρ w n hs hp hnw
    refine ⟨H28.runNext_eq_h28 w n hs hp hnw, ?_, ?_⟩
    · refine chain'_map_range _ _ n fun k => ⟨?_, ?_⟩
      · have : (k + 1) * w.Step < (k + 1 + 1) * w.Step :=
          (Nat.mul_lt_mul_right hs).mpr (by omega)
        omega
      · have : (k + 1 + 1) * w.Step = (k + 1) * w.Step + w.Step :=
          Nat.succ_mul _ _
        omega
    · refine List.Pairwise.map _ (fun a b hab => ?_) (List.pairwise_lt_range n)
      have : (a + 1) * w.Step < (b + 1) * w.Step :=
        (Nat.mul_lt_mul_right hs).mpr (by omega)
      omega

/-- C1 witness: three calls of step 4 from a freshly reset word produce the
raw low values 4, 8, 12, in both variants. -/
theorem C1_raw_low_sequence_witness :
    H32.runNext ({ N := 5 * 2 ^ 32, Step := 4 } : H32.WUID Nat) 3 =
      some ({ N := 5 * 2 ^ 32 + 3 * 4, Step := 4 }, [4, 8, 12]) ∧
    H28.runNext ({ N := 5 * 2 ^ 36, Step := 4 } : H28.WUID Nat) 3 =
      some ({ N := 5 * 2 ^ 36 + 3 * 4, Step := 4 }, [4, 8, 12]) :=
  ⟨(C1_raw_low_sequence.1 _ 3 (by decide) (by decide) (by decide) (by decide)).1,
   (C1_raw_low_sequence.2 _ 3 (by decide) (by decide) (by decide)).1⟩

theorem H32.high21_lt (v : Nat) : v >>> 32 &&& (2 ^ 21 - 1) < 2 ^ 21 :=
  Nat.and_lt_two_pow _ (by decide)

theorem H32.obf_low_lt {ρ : Type} (w : H32.WUID ρ) (v : Nat) :
    (v ^^^ w.ObfuscationMask) &&& H32.L32Mask < 2 ^ 32 := by
  rw [H32.and_L32]
  exact Nat.mod_lt _ (Nat.pow_pos (by omega))

theorem H32.obfuscate_eq {ρ : Type} (w : H32.WUID ρ) (v : Nat) :
    H32.obfuscate w v = (v >>> 32 &&& (2 ^ 21 - 1)) * 2 ^ 32 +
      ((v ^^^ w.ObfuscationMask) &&& H32.L32Mask) := by
  unfold H32.obfuscate
  rw [H32.and_H32_split, or_mul_pow _ _ _ (H32.obf_low_lt w v)]

theorem H32.quantize_add_eq {ρ : Type} (w : H32.WUID ρ) (a L : Nat)
    (hfl : 0 < w.Floor) (hfL : w.Floor ≤ L) :
    H32.quantizeFloor w (a * 2 ^ 32 + L) =
      a * 2 ^ 32 + (L - (a * 2 ^ 32 + L) % w.Floor) := by
  unfold H32.quantizeFloor
  rw [div_mul_eq_sub_mod]
  have := Nat.mod_lt (a * 2 ^ 32 + L) hfl
  omega

theorem H32.obfuscate_and_H32 {ρ : Type} (w : H32.WUID ρ) (v : Nat) :
    H32.obfuscate w v &&& H32.H32Mask = v &&& H32.H32Mask := by
  rw [H32.obfuscate_eq, H32.H32Mask_eq_shift,
    and_high_decomp _ _ _ _ (H32.high21_lt v) (H32.obf_low_lt w v),
    ← Nat.shiftLeft_eq, ← and_shiftLeft_mask]

theorem H32.obf_low_ge {ρ : Type} (w : H32.WUID ρ) (v : Nat)
    (hs1024 : w.Step ≤ 1024)
    (hmask : w.ObfuscationMask &&& (w.Step - 1) = w.Step - 1)
    (halign : v &&& (w.Step - 1) = 0) :
    w.Step - 1 ≤ (v ^^^ w.ObfuscationMask) &&& H32.L32Mask := by
  have h1 : ((v ^^^ w.ObfuscationMask) &&& H32.L32Mask) &&& (w.Step - 1) =
      w.Step - 1 := by
    rw [Nat.and_assoc]
    have h2 : H32.L32Mask &&& (w.Step - 1) = w.Step - 1 := by
      rw [Nat.and_comm, H32.L32Mask_eq_pow, and_low_mask,
        Nat.mod_eq_of_lt (by omega)]
    rw [h2, Nat.and_xor_distrib_right, halign, hmask, Nat.zero_xor]
  calc w.Step - 1 = _ := h1.symm
  _ ≤ _ := Nat.and_le_left

theorem H32.quantize_obf_and_H32 {ρ : Type} (w : H32.WUID ρ) (v : Nat)
    (hfl : 2 ≤ w.Floor) (hfs : w.Floor < w.Step) (hs1024 : w.Step ≤ 1024)
    (hmask : w.ObfuscationMask &&& (w.Step - 1) = w.Step - 1)
    (halign : v &&& (w.Step - 1) = 0) :
    H32.quantizeFloor w (H32.obfuscate w v) &&& H32.H32Mask =
      v &&& H32.H32Mask := by
  have hge := H32.obf_low_ge w v hs1024 hmask halign
  have hlt := H32.obf_low_lt w v
  rw [H32.obfuscate_eq, H32.quantize_add_eq w _ _ (by omega) (by omega),
    H32.H32Mask_eq_shift, and_high_decomp _ _ _ _ (H32.high21_lt v) (by omega),
    ← Nat.shiftLeft_eq, ← and_shiftLeft_mask]

/-- C6: when obfuscation alone is enabled (flags 1), Next returns the
obfuscated word; when obfuscation and floor are both enabled (flags 3), Next
applies obfuscation first and floor quantization second; in both cases the
returned value keeps exactly the high-segment bits of the stored counter
word, given the mask and alignment invariants established by the constructor
and Reset. -/
theorem C6_transform_order_high_legible :
    ∀ {ρ : Type} (w : H32.WUID ρ),
      w.N + w.Step < 2 ^ 64 →
      (w.N + w.Step) &&& H32.L32Mask < H32.PanicValue →
      (w.Flags = 1 →
        ∃ s, H32.next w = (.ok (H32.obfuscate w (w.N + w.Step)) s,
            { w with N := w.N + w.Step }) ∧
          H32.obfuscate w (w.N + w.Step) &&& H32.H32Mask =
            (w.N + w.Step) &&& H32.H32Mask) ∧
      (w.Flags = 3 → 2 ≤ w.Floor → w.Floor < w.Step → w.Step ≤ 1024 →
        w.ObfuscationMask &&& (w.Step - 1) = w.Step - 1 →
        (w.N + w.Step) &&& (w.Step - 1) = 0 →
        ∃ s, H32.next w =
          (.ok (H32.quantizeFloor w (H32.obfuscate w (w.N + w.Step))) s,
            { w with N := w.N + w.Step }) ∧
          H32.quantizeFloor w (H32.obfuscate w (w.N + w.Step)) &&&
            H32.H32Mask = (w.N + w.Step) &&& H32.H32Mask) := by
  intro ρ w hnw hp
  constructor
  · intro h1
    refine ⟨decide (H32.CriticalValue ≤ (w.N + w.Step) &&& H32.L32Mask) &&
        decide ((w.N + w.Step) &&& H32.L32Mask &&& H32.RenewIntervalMask = 0),
      ?_, H32.obfuscate_and_H32 w _⟩
    rw [H32.next_ok w hnw hp (by omega)]
    simp [h1]
  · intro h3 hfl hfs hs1024 hmask halign
    refine ⟨decide (H32.CriticalValue ≤ (w.N + w.Step) &&& H32.L32Mask) &&
        decide ((w.N + w.Step) &&& H32.L32Mask &&& H32.RenewIntervalMask = 0),
      ?_, H32.quantize_obf_and_H32 w _ hfl hfs hs1024 hmask halign⟩
    rw [H32.next_ok w hnw hp (by omega)]
    simp [h3]

/-- Concrete flags 3 generator used to exercise the obfuscation claims. -/
def obfDemo : H32.WUID Nat :=
  { N := 5 * 2 ^ 32, Step := 4, Floor := 3, Flags := 3, Obfuscation := true,
    ObfuscationMask := 7 }

/-- C6 witness: the concrete flags 3 generator with step 4, floor 3, and a
mask whose low bits are saturated obfuscates first, quantizes second, and
keeps the high segment legible. -/
theorem C6_transform_order_high_legible_witness :
    ∃ s, H32.next obfDemo =
      (.ok (H32.quantizeFloor obfDemo
          (H32.obfuscate obfDemo (5 * 2 ^ 32 + 4))) s,
        { obfDemo with N := 5 * 2 ^ 32 + 4 }) ∧
      H32.quantizeFloor obfDemo (H32.obfuscate obfDemo (5 * 2 ^ 32 + 4)) &&&
        H32.H32Mask = (5 * 2 ^ 32 + 4) &&& H32.H32Mask :=
  (C6_transform_order_high_legible obfDemo (by decide) (by decide)).2 rfl
    (by decide) (by decide) (by decide) (by decide) (by decide)

theorem H32.reset_high {ρ : Type} (w : H32.WUID ρ) (h e : Nat)
    (hm : w.Monolithic = true) (_hh : h ≤ 0x1FFFFF) (he : e ≤ 10)
    (hstep : w.Step = 2 ^ e) :
    H32.reset w ((h : Int) * 2 ^ 32) = .ok { w with N := h * 2 ^ 32 } := by
  have hcast : ((h : Int) * 2 ^ 32) = ((h * 2 ^ 32 : Nat) : Int) := by
    push_cast
    ring
  have halign : (h * 2 ^ 32) &&& (w.Step - 1) = 0 := by
    rw [hstep, and_low_mask]
    exact Nat.mod_eq_zero_of_dvd
      ((Nat.pow_dvd_pow 2 (by omega : e ≤ 32)).mul_left h)
  have hlow : (h * 2 ^ 32) &&& H32.L32Mask = 0 := by
    rw [H32.and_L32]
    exact Nat.mul_mod_left h (2 ^ 32)
  unfold H32.reset
  rw [hcast, if_neg (not_lt.mpr (Int.natCast_nonneg _)), Int.toNat_natCast]
  rw [if_neg (by rw [hlow]; decide), hm, if_pos rfl]
  by_cases hfl : 1 < w.Floor
  · rw [if_pos hfl, if_pos halign]
  · rw [if_neg hfl]

theorem H28.reset_high_h28 {ρ : Type} (w : H28.WUID ρ) (h : Nat)
    (hm : w.Monolithic = true) :
    H28.reset w ((h : Int) * 2 ^ 36) = .ok { w with N := h * 2 ^ 36 } := by
  have hcast : ((h : Int) * 2 ^ 36) = ((h * 2 ^ 36 : Nat) : Int) := by
    push_cast
    ring
  unfold H28.reset
  rw [hcast, if_neg (not_lt.mpr (Int.natCast_nonneg _)), Int.toNat_natCast, hm,
    if_pos rfl]

/-- C7: after Reset installs the packed word with high segment h, the value
returned by the next call of Next carries exactly h in its high-segment bits
(under the configuration invariants of the constructor); and whenever a floor
of at least 2 is configured, every value Next returns is a multiple of the
floor. Both bit-split variants are covered. -/
theorem C7_reset_then_next_high_and_floor :
    (∀ {ρ : Type} (w : H32.WUID ρ) (h e : Nat),
      w.Monolithic = true → w.Flags < 4 → h ≤ 0x1FFFFF → e ≤ 10 →
      w.Step = 2 ^ e →
      (w.Flags = 2 ∨ w.Flags = 3 → 2 ≤ w.Floor ∧ w.Floor < w.Step) →
      (w.Flags = 3 → w.ObfuscationMask &&& (w.Step - 1) = w.Step - 1) →
      H32.reset w ((h : Int) * 2 ^ 32) = .ok { w with N := h * 2 ^ 32 } ∧
      ∃ r s w', H32.next ({ w with N := h * 2 ^ 32 } : H32.WUID ρ) =
        (.ok r s, w') ∧ r >>> 32 = h) ∧
    (∀ {ρ : Type} (w : H32.WUID ρ) (r : Nat) (s : Bool) (w' : H32.WUID ρ),
      0 < w.Floor → w.Flags = 2 ∨ w.Flags = 3 →
      H32.next w = (.ok r s, w') → r % w.Floor = 0) ∧
    (∀ {ρ : Type} (w : H28.WUID ρ) (h : Nat),
      w.Monolithic = true → h ≤ 0x07FFFFFF → 0 < w.Step → w.Step ≤ 1024 →
      w.Floor < w.Step →
      H28.reset w ((h : Int) * 2 ^ 36) = .ok { w with N := h * 2 ^ 36 } ∧
      ∃ r s w', H28.next ({ w with N := h * 2 ^ 36 } : H28.WUID ρ) =
        (.ok r s, w') ∧ r >>> 36 = h) ∧
    (∀ {ρ : Type} (w : H28.WUID ρ) (r : Nat) (s : Bool) (w' : H28.WUID ρ),
      w.Floor ≠ 0 →
      H28.next w = (.ok r s, w') → r % w.Floor = 0) := by
  refine ⟨?_, ?_, ?_, ?_⟩
  · intro ρ w h e hm hf hh he hstep hflr hmask
    have hs1024 : w.Step ≤ 1024 := by
      rw [hstep]
      calc (2 : Nat) ^ e ≤ 2 ^ 10 := Nat.pow_le_pow_right (by omega) he
      _ = 1024 := by norm_num
    have hspos : 0 < w.Step := by
      rw [hstep]
      exact Nat.pow_pos (by omega)
    refine ⟨H32.reset_high w h e hm hh he hstep, ?_⟩
    have hP := H32.PanicValue_eq
    have hnw1 : h * 2 ^ 32 + w.Step < 2 ^ 64 := by omega
    have hlow : (h * 2 ^ 32 + w.Step) &&& H32.L32Mask = w.Step := by
      rw [H32.and_L32, mul_pow_add_mod _ _ _ (by omega)]
    have hp1 : (h * 2 ^ 32 + w.Step) &&& H32.L32Mask < H32.PanicValue := by
      rw [hlow]
      omega
    have hsr : (h * 2 ^ 32 + w.Step) >>> 32 = h := by
      rw [Nat.shiftRight_eq_div_pow, div_pow_decomp _ _ _ (by omega)]
    rw [H32.next_ok ({ w with N := h * 2 ^ 32 } : H32.WUID ρ) hnw1 hp1 hf]
    refine ⟨_, _, _, rfl, ?_⟩
    dsimp only
    rcases show w.Flags = 0 ∨ w.Flags = 1 ∨ w.Flags = 2 ∨ w.Flags = 3 by omega
      with hF | hF | hF | hF
    · rw [hF]
      exact hsr
    · rw [hF]
      show H32.obfuscate ({ w with N := h * 2 ^ 32, Flags := 1 } : H32.WUID ρ)
        (h * 2 ^ 32 + w.Step) >>> 32 = h
      rw [H32.obfuscate_eq]
      dsimp only
      rw [hsr, and_low_mask, Nat.mod_eq_of_lt (by omega),
        Nat.shiftRight_eq_div_pow,
        div_pow_decomp _ _ _ (H32.obf_low_lt w (h * 2 ^ 32 + w.Step))]
    · obtain ⟨hfl2, hfls⟩ := hflr (Or.inl hF)
      rw [hF]
      show H32.quantizeFloor
        ({ w with N := h * 2 ^ 32, Flags := 2 } : H32.WUID ρ)
        (h * 2 ^ 32 + w.Step) >>> 32 = h
      rw [H32.quantize_add_eq
          ({ w with N := h * 2 ^ 32, Flags := 2 } : H32.WUID ρ) h w.Step
          (show 0 < w.Floor by omega) (show w.Floor ≤ w.Step by omega)]
      dsimp only
      rw [Nat.shiftRight_eq_div_pow, div_pow_decomp _ _ _ (by omega)]
    · obtain ⟨hfl2, hfls⟩ := hflr (Or.inr hF)
      have hmask3 := hmask hF
      have halign : (h * 2 ^ 32 + w.Step) &&& (w.Step - 1) = 0 := by
        conv_lhs => rw [hstep]
        rw [and_low_mask]
        exact Nat.mod_eq_zero_of_dvd
          (((Nat.pow_dvd_pow 2 (by omega : e ≤ 32)).mul_left h).add dvd_rfl)
      have hge := H32.obf_low_ge w (h * 2 ^ 32 + w.Step) hs1024 hmask3 halign
      have hlt := H32.obf_low_lt w (h * 2 ^ 32 + w.Step)
      rw [hF]
      show H32.quantizeFloor
        ({ w with N := h * 2 ^ 32, Flags := 3 } : H32.WUID ρ)
        (H32.obfuscate ({ w with N := h * 2 ^ 32, Flags := 3 } : H32.WUID ρ)
          (h * 2 ^ 32 + w.Step)) >>> 32 = h
      rw [H32.obfuscate_eq]
      dsimp only
      rw [hsr, and_low_mask, Nat.mod_eq_of_lt (by omega)]
      rw [H32.quantize_add_eq
          ({ w with N := h * 2 ^ 32, Flags := 3 } : H32.WUID ρ) h
          (((h * 2 ^ 32 + w.Step) ^^^ w.ObfuscationMask) &&& H32.L32Mask)
          (show 0 < w.Floor by omega)
          (show w.Floor ≤
            ((h * 2 ^ 32 + w.Step) ^^^ w.ObfuscationMask) &&& H32.L32Mask
            by omega)]
      dsimp only
      rw [Nat.shiftRight_eq_div_pow, div_pow_decomp _ _ _ (by omega)]
  · intro ρ w r s w' hfl hflags hnext
    simp only [H32.next] at hnext
    by_cases hpan :
        H32.PanicValue ≤ ((w.N + w.Step) % 2 ^ 64) &&& H32.L32Mask
    · rw [if_pos hpan] at hnext
      exact absurd hnext (by simp)
    · rw [if_neg hpan] at hnext
      rcases hflags with hF | hF <;> simp [hF, Prod.mk.injEq] at hnext <;>
        obtain ⟨⟨hr, -⟩, -⟩ := hnext <;> rw [← hr] <;>
        exact Nat.mul_mod_left _ _
  · intro ρ w h hm hh hspos hs1024 hfls
    refine ⟨H28.reset_high_h28 w h hm, ?_⟩
    have hP := H28.PanicValue_eq_h28
    have hnw1 : h * 2 ^ 36 + w.Step < 2 ^ 64 := by omega
    have hlow : (h * 2 ^ 36 + w.Step) &&& H28.L36Mask = w.Step := by
      rw [H28.and_L36, mul_pow_add_mod _ _ _ (by omega)]
    have hp1 : (h * 2 ^ 36 + w.Step) &&& H28.L36Mask < H28.PanicValue := by
      rw [hlow]
      omega
    have hsr : (h * 2 ^ 36 + w.Step) >>> 36 = h := by
      rw [Nat.shiftRight_eq_div_pow, div_pow_decomp _ _ _ (by omega)]
    rw [H28.next_ok_h28 ({ w with N := h * 2 ^ 36 } : H28.WUID ρ) hnw1 hp1]
    refine ⟨_, _, _, rfl, ?_⟩
    dsimp only
    by_cases hfl : w.Floor = 0
    · rw [if_pos hfl]
      exact hsr
    · rw [if_neg hfl, div_mul_eq_sub_mod]
      have hmlt : (h * 2 ^ 36 + w.Step) % w.Floor < w.Floor :=
        Nat.mod_lt _ (by omega)
      have heq : h * 2 ^ 36 + w.Step - (h * 2 ^ 36 + w.Step) % w.Floor =
          h * 2 ^ 36 + (w.Step - (h * 2 ^ 36 + w.Step) % w.Floor) := by
        omega
      rw [heq, Nat.shiftRight_eq_div_pow, div_pow_decomp _ _ _ (by omega)]
  · intro ρ w r s w' hfl hnext
    simp only [H28.next] at hnext
    by_cases hpan :
        H28.PanicValue ≤ ((w.N + w.Step) % 2 ^ 64) &&& H28.L36Mask
    · rw [if_pos hpan] at hnext
      exact absurd hnext (by simp)
    · rw [if_neg hpan, if_neg hfl] at hnext
      simp only [Prod.mk.injEq, NextOutcome.ok.injEq] at hnext
      obtain ⟨⟨hr, -⟩, -⟩ := hnext
      rw [← hr]
      exact Nat.mul_mod_left _ _

/-- C7 witness: resetting the flags 3 demo generator to high segment 9 and
calling Next returns a value whose high 32 bits are 9; and at floor 3 the
returned value of a flags 2 generator is a multiple of 3. -/
theorem C7_reset_then_next_high_and_floor_witness :
    (H32.reset obfDemo ((9 : Nat) * 2 ^ 32 : Int) =
      .ok { obfDemo with N := 9 * 2 ^ 32 } ∧
     ∃ r s w', H32.next ({ obfDemo with N := 9 * 2 ^ 32 } : H32.WUID Nat) =
       (.ok r s, w') ∧ r >>> 32 = 9) ∧
    (H28.reset ({ N := 3 * 2 ^ 36, Step := 4, Floor := 3 } : H28.WUID Nat)
        ((9 : Nat) * 2 ^ 36 : Int) =
      .ok { N := 9 * 2 ^ 36, Step := 4, Floor := 3 } ∧
     ∃ r s w', H28.next ({ N := 9 * 2 ^ 36, Step := 4, Floor := 3 } :
         H28.WUID Nat) = (.ok r s, w') ∧ r >>> 36 = 9) :=
  ⟨C7_reset_then_next_high_and_floor.1 obfDemo 9 2 rfl (by decide) (by decide)
      (by decide) rfl (fun _ => by constructor <;> decide) (fun _ => by decide),
   C7_reset_then_next_high_and_floor.2.2.1 _ 9 rfl (by decide) (by decide)
      (by decide) (by decide)⟩

/-- C9: once a renewal function is bound, a later successful load from the
store leaves the binding unchanged (re-binding is a no-op preserving the
first-bound closure), while the newly obtained high segment is still applied
to the counter word before the binding check. -/
theorem C9_rebind_noop_value_applied :
    ∀ {ρ : Type} (w : H32.WUID ρ) (act f : ρ) (h e : Nat),
      w.Monolithic = true → h ≤ 0x1FFFFF → e ≤ 10 → w.Step = 2 ^ e →
      w.Renew = some f →
      H32.verifyh32 w ((h : Nat) : Int) = none →
      loadh32FromRedis w act ((h : Nat) : Int) =
        .ok { w with N := h * 2 ^ 32 } ∧
      ({ w with N := h * 2 ^ 32 } : H32.WUID ρ).Renew = some f := by
  intro ρ w act f h e hm hh he hstep hren hverify
  unfold loadh32FromRedis
  rw [hverify, H32.reset_high w h e hm hh he hstep]
  refine ⟨?_, hren⟩
  have hren1 : ({ w with N := h * 2 ^ 32 } : H32.WUID ρ).Renew = some f := hren
  rw [hren1]

/-- C9 witness: a generator with an existing binding keeps it across a
successful load of high segment 7, and the word is reset to 7 shifted into
the high half. -/
theorem C9_rebind_noop_value_applied_witness :
    loadh32FromRedis ({ N := 5 * 2 ^ 32, Renew := some 99 } : H32.WUID Nat)
        42 ((7 : Nat) : Int) =
      .ok { N := 7 * 2 ^ 32, Renew := some 99 } ∧
    ({ N := 7 * 2 ^ 32, Renew := some 99 } : H32.WUID Nat).Renew = some 99 :=
  C9_rebind_noop_value_applied
    ({ N := 5 * 2 ^ 32, Renew := some 99 } : H32.WUID Nat) 42 99 7 0 rfl
    (by decide) (by decide) rfl rfl (by decide)

end Wuid
